import Mathlib

/-!
Verification of the banking ledger service in `src/week_1.py`.

The Python domain model is embedded shallowly:
* enums become inductive types;
* `Account` and `Transaction` become structures (monetary amounts are
  modelled as rationals `ℚ`; `uuid4` identifier generation is modelled by a
  fresh-identifier counter threaded through the global state; timestamps are
  irrelevant to the verified properties and are omitted);
* the in-memory repositories become explicit data: the account dictionary is
  an association list with Python dict-assignment semantics (`dict_set`), the
  transaction log is a list with append;
* methods that mutate objects in place become functions returning the new
  value, with `raise ValueError` modelled as `Except.error` carrying the
  discriminated error kind;
* the two services become state-passing functions over `BankState`, and the
  public interface is closed into a small operational semantics (`Op`,
  `step`, `run`) in which a failed call leaves the state unchanged, exactly
  as an exception aborts the Python call before any mutation.
-/

inductive AccountStatus where
  | ACTIVE
  | CLOSED
deriving DecidableEq

inductive AccountType where
  | CHECKING
  | SAVINGS
deriving DecidableEq

inductive TransactionType where
  | DEPOSIT
  | WITHDRAW
deriving DecidableEq

/-- The discriminable failure kinds raised by the core (`ValueError` messages
in the Python source, plus the invalid-enum-value error of `AccountType`). -/
inductive BankError where
  | InvalidAmount
  | InsufficientBalance
  | AccountNotFound
  | InvalidAccountType
deriving DecidableEq

/-- Mirrors `Account.__init__`: identifier, type, balance, status (creation date
omitted: no verified property mentions it). -/
structure Account where
  account_id : Nat
  account_type : AccountType
  balance : ℚ
  status : AccountStatus
deriving DecidableEq

instance {ε α : Type} [DecidableEq ε] [DecidableEq α] :
    DecidableEq (Except ε α) := fun x y =>
  match x, y with
  | .error e1, .error e2 =>
    if h : e1 = e2 then .isTrue (by rw [h])
    else .isFalse (fun hh => by cases hh; exact h rfl)
  | .error _, .ok _ => .isFalse (fun hh => by cases hh)
  | .ok _, .error _ => .isFalse (fun hh => by cases hh)
  | .ok a1, .ok a2 =>
    if h : a1 = a2 then .isTrue (by rw [h])
    else .isFalse (fun hh => by cases hh; exact h rfl)

/-- Mirrors `Account.deposit`: rejects non-positive amounts, otherwise adds. -/
def Account.deposit (a : Account) (amount : ℚ) : Except BankError Account :=
  if amount ≤ 0 then .error .InvalidAmount
  else .ok { a with balance := a.balance + amount }

/-- Mirrors `Account.withdraw`: rejects non-positive amounts, then rejects amounts
above the balance, otherwise subtracts. -/
def Account.withdraw (a : Account) (amount : ℚ) : Except BankError Account :=
  if amount ≤ 0 then .error .InvalidAmount
  else if a.balance < amount then .error .InsufficientBalance
  else .ok { a with balance := a.balance - amount }

/-- Mirrors `Transaction.__init__` (timestamp omitted, as for `Account`). -/
structure Transaction where
  transaction_id : Nat
  account_id : Nat
  transaction_type : TransactionType
  amount : ℚ
deriving DecidableEq

/-- Python dict assignment `d[k] = a` on an association list: replace the
binding of `k` if present, else append a new binding.  Both
`AccountRepository.create_account` and `AccountRepository.update_account`
are this single operation. -/
def dict_set (m : List (Nat × Account)) (k : Nat) (a : Account) :
    List (Nat × Account) :=
  match m with
  | [] => [(k, a)]
  | (k0, a0) :: rest =>
    if k0 = k then (k, a) :: rest else (k0, a0) :: dict_set rest k a

/-- Mirrors `AccountRepository.get_account_by_id`: `d.get(k)`. -/
def get_account_by_id (m : List (Nat × Account)) (k : Nat) : Option Account :=
  match m with
  | [] => none
  | (k0, a0) :: rest => if k0 = k then some a0 else get_account_by_id rest k

/-- Mirrors `TransactionRepository.save_transaction`: append to the ordered log. -/
def save_transaction (log : List Transaction) (t : Transaction) :
    List Transaction :=
  log ++ [t]

/-- Mirrors `TransactionRepository.get_transactions_for_account`: the list
comprehension `[tx for tx in self.transactions if tx.account_id == k]`. -/
def get_transactions_for_account (log : List Transaction) (k : Nat) :
    List Transaction :=
  log.filter (fun t => t.account_id == k)

/-- The whole in-memory state: the two module-level repositories plus the
fresh-identifier source modelling `uuid.uuid4()`. -/
structure BankState where
  accounts : List (Nat × Account)
  transactions : List Transaction
  next_id : Nat
deriving DecidableEq

/-- Mirrors `AccountType(account_type)`: enum construction from a string, failing on
anything outside the two recognized values. -/
def AccountType.ofString (s : String) : Option AccountType :=
  if s = "CHECKING" then some .CHECKING
  else if s = "SAVINGS" then some .SAVINGS
  else none

/-- Mirrors `AccountCreationService.create_account`: parse the type string, build the
account with `balance = initial_deposit` (no sign validation) and status
`ACTIVE`, store it, return its identifier. -/
def create_account_service (st : BankState) (ty : String)
    (initial_deposit : ℚ) : Except BankError (BankState × Nat) :=
  match AccountType.ofString ty with
  | none => .error .InvalidAccountType
  | some t =>
    let acc : Account :=
      { account_id := st.next_id, account_type := t,
        balance := initial_deposit, status := .ACTIVE }
    .ok ({ accounts := dict_set st.accounts acc.account_id acc,
           transactions := st.transactions,
           next_id := st.next_id + 1 }, acc.account_id)

/-- Mirrors `TransactionService.deposit`: look up the account (else
`AccountNotFound`), run `Account.deposit` (propagating its error), persist
the updated account, append one `DEPOSIT` transaction, return it. -/
def service_deposit (st : BankState) (account_id : Nat) (amount : ℚ) :
    Except BankError (BankState × Transaction) :=
  match get_account_by_id st.accounts account_id with
  | none => .error .AccountNotFound
  | some acc =>
    match acc.deposit amount with
    | .error e => .error e
    | .ok acc2 =>
      let tx : Transaction :=
        { transaction_id := st.next_id, account_id := account_id,
          transaction_type := .DEPOSIT, amount := amount }
      .ok ({ accounts := dict_set st.accounts account_id acc2,
             transactions := save_transaction st.transactions tx,
             next_id := st.next_id + 1 }, tx)

/-- Mirrors `TransactionService.withdraw`: same shape as `service_deposit`, using
`Account.withdraw` and a `WITHDRAW` transaction. -/
def service_withdraw (st : BankState) (account_id : Nat) (amount : ℚ) :
    Except BankError (BankState × Transaction) :=
  match get_account_by_id st.accounts account_id with
  | none => .error .AccountNotFound
  | some acc =>
    match acc.withdraw amount with
    | .error e => .error e
    | .ok acc2 =>
      let tx : Transaction :=
        { transaction_id := st.next_id, account_id := account_id,
          transaction_type := .WITHDRAW, amount := amount }
      .ok ({ accounts := dict_set st.accounts account_id acc2,
             transactions := save_transaction st.transactions tx,
             next_id := st.next_id + 1 }, tx)

/-- One call through the public interface. -/
inductive Op where
  | createAccount (ty : String) (initial_deposit : ℚ)
  | deposit (account_id : Nat) (amount : ℚ)
  | withdraw (account_id : Nat) (amount : ℚ)

/-- Effect of one public call on the state: a failing call raises before any
mutation, so it leaves the state unchanged. -/
def step (st : BankState) (op : Op) : BankState :=
  match op with
  | .createAccount ty init =>
    match create_account_service st ty init with
    | .ok (st2, _) => st2
    | .error _ => st
  | .deposit account_id amount =>
    match service_deposit st account_id amount with
    | .ok (st2, _) => st2
    | .error _ => st
  | .withdraw account_id amount =>
    match service_withdraw st account_id amount with
    | .ok (st2, _) => st2
    | .error _ => st

/-- Run a sequence of public calls. -/
def run (st : BankState) (ops : List Op) : BankState := ops.foldl step st

/-- The state at module import: empty repositories. -/
def initState : BankState :=
  { accounts := [], transactions := [], next_id := 0 }

/-- The operations whose create calls carry a non-negative initial deposit
(the missing validation the balance invariant needs). -/
def nonneg_creations : Op → Prop
  | .createAccount _ init => 0 ≤ init
  | .deposit _ _ => True
  | .withdraw _ _ => True

instance : DecidablePred nonneg_creations := fun op =>
  match op with
  | .createAccount _ init => inferInstanceAs (Decidable (0 ≤ init))
  | .deposit _ _ => inferInstanceAs (Decidable True)
  | .withdraw _ _ => inferInstanceAs (Decidable True)

/-- Every identifier stored in the state is below the fresh-identifier
counter, so a fresh identifier collides with nothing (the uniqueness `uuid4`
gives the Python code). -/
def ids_bounded (st : BankState) : Prop :=
  (∀ p ∈ st.accounts, p.1 < st.next_id) ∧
  (∀ t ∈ st.transactions, t.account_id < st.next_id)

/-! ### Dictionary lemmas -/

theorem get_account_dict_set_self (m : List (Nat × Account)) (k : Nat)
    (a : Account) : get_account_by_id (dict_set m k a) k = some a := by
  induction m with
  | nil => simp [dict_set, get_account_by_id]
  | cons p rest ih =>
    obtain ⟨k0, a0⟩ := p
    by_cases h : k0 = k
    · simp [dict_set, get_account_by_id, h]
    · simp [dict_set, get_account_by_id, h, ih]

theorem get_account_dict_set_ne (m : List (Nat × Account)) (k j : Nat)
    (a : Account) (h : j ≠ k) :
    get_account_by_id (dict_set m k a) j = get_account_by_id m j := by
  have hk : ¬(k = j) := fun hh => h hh.symm
  induction m with
  | nil => simp [dict_set, get_account_by_id, hk]
  | cons p rest ih =>
    obtain ⟨k0, a0⟩ := p
    by_cases h0 : k0 = k
    · subst h0
      simp [dict_set, get_account_by_id, hk]
    · simp only [dict_set, if_neg h0]
      by_cases h1 : k0 = j
      · simp [get_account_by_id, h1]
      · simp [get_account_by_id, h1, ih]

theorem mem_dict_set (m : List (Nat × Account)) (k : Nat) (a : Account)
    (p : Nat × Account) (hp : p ∈ dict_set m k a) : p = (k, a) ∨ p ∈ m := by
  induction m with
  | nil => simpa [dict_set] using hp
  | cons q rest ih =>
    obtain ⟨k0, a0⟩ := q
    by_cases h : k0 = k
    · simp [dict_set, h] at hp
      rcases hp with hp | hp
      · exact .inl hp
      · exact .inr (List.mem_cons_of_mem _ hp)
    · simp [dict_set, h] at hp
      rcases hp with hp | hp
      · exact .inr (by simp [hp])
      · rcases ih hp with hh | hh
        · exact .inl hh
        · exact .inr (List.mem_cons_of_mem _ hh)

theorem get_account_mem (m : List (Nat × Account)) (k : Nat) (a : Account)
    (h : get_account_by_id m k = some a) : (k, a) ∈ m := by
  induction m with
  | nil => simp [get_account_by_id] at h
  | cons q rest ih =>
    obtain ⟨k0, a0⟩ := q
    by_cases h0 : k0 = k
    · subst h0
      simp [get_account_by_id] at h
      simp [h]
    · simp [get_account_by_id, h0] at h
      exact List.mem_cons_of_mem _ (ih h)

/-! ### Account-level operation contracts -/

/-- C2: `Account.withdraw` rejects non-positive amounts with `InvalidAmount`;
rejects amounts above the balance with `InsufficientBalance`; otherwise
succeeds and decreases the balance by exactly the amount. -/
theorem withdraw_contract (a : Account) (amount : ℚ) :
    (amount ≤ 0 → a.withdraw amount = .error .InvalidAmount) ∧
    (0 < amount → a.balance < amount →
      a.withdraw amount = .error .InsufficientBalance) ∧
    (0 < amount → amount ≤ a.balance →
      a.withdraw amount = .ok { a with balance := a.balance - amount }) := by
  refine ⟨fun h => ?_, fun h1 h2 => ?_, fun h1 h2 => ?_⟩
  · simp [Account.withdraw, h]
  · simp [Account.withdraw, h2, not_le.mpr h1]
  · simp [Account.withdraw, not_le.mpr h1, not_lt.mpr h2]

/-- Witness for C2: all three branches of `withdraw_contract` instantiated at
concrete accounts and amounts. -/
theorem withdraw_contract_witness :
    (Account.withdraw ⟨0, .CHECKING, 10, .ACTIVE⟩ 0 =
      .error .InvalidAmount) ∧
    (Account.withdraw ⟨0, .CHECKING, 10, .ACTIVE⟩ 11 =
      .error .InsufficientBalance) ∧
    (Account.withdraw ⟨0, .CHECKING, 10, .ACTIVE⟩ 3 =
      .ok ⟨0, .CHECKING, 10 - 3, .ACTIVE⟩) :=
  ⟨(withdraw_contract ⟨0, .CHECKING, 10, .ACTIVE⟩ 0).1 (by decide),
   (withdraw_contract ⟨0, .CHECKING, 10, .ACTIVE⟩ 11).2.1 (by decide)
     (by decide),
   (withdraw_contract ⟨0, .CHECKING, 10, .ACTIVE⟩ 3).2.2 (by decide)
     (by decide)⟩

/-- C5: `Account.deposit` rejects non-positive amounts with `InvalidAmount`
(and, at the service level, a rejected deposit leaves the stored state —
hence the balance — unchanged); otherwise it increases the balance by
exactly the amount, for every amount whatsoever above zero (no upper bound
is enforced). -/
theorem deposit_contract (a : Account) (amount : ℚ) (st : BankState)
    (account_id : Nat) :
    (amount ≤ 0 → a.deposit amount = .error .InvalidAmount) ∧
    (amount ≤ 0 → step st (.deposit account_id amount) = st) ∧
    (0 < amount →
      a.deposit amount = .ok { a with balance := a.balance + amount }) := by
  refine ⟨fun h => ?_, fun h => ?_, fun h => ?_⟩
  · simp [Account.deposit, h]
  · cases hacc : get_account_by_id st.accounts account_id with
    | none => simp [step, service_deposit, hacc]
    | some acc => simp [step, service_deposit, hacc, Account.deposit, h]
  · simp [Account.deposit, not_le.mpr h]

/-- Witness for C5: a rejected zero deposit and a successful large deposit,
from `deposit_contract`. -/
theorem deposit_contract_witness :
    (Account.deposit ⟨0, .CHECKING, 10, .ACTIVE⟩ 0 =
      .error .InvalidAmount) ∧
    (step initState (.deposit 0 0) = initState) ∧
    (Account.deposit ⟨0, .CHECKING, 10, .ACTIVE⟩ 1000000 =
      .ok ⟨0, .CHECKING, 10 + 1000000, .ACTIVE⟩) :=
  ⟨(deposit_contract ⟨0, .CHECKING, 10, .ACTIVE⟩ 0 initState 0).1
     (by decide),
   (deposit_contract ⟨0, .CHECKING, 10, .ACTIVE⟩ 0 initState 0).2.1
     (by decide),
   (deposit_contract ⟨0, .CHECKING, 10, .ACTIVE⟩ 1000000 initState 0).2.2
     (by decide)⟩

/-- C9: for every account — negative balance included — and every
non-positive amount, `Account.withdraw` fails with `InvalidAmount`, never
with `InsufficientBalance`: the non-positive-amount check runs first, even
when the amount also exceeds the balance. -/
theorem withdraw_invalid_amount_precedence (a : Account) (amount : ℚ)
    (h : amount ≤ 0) :
    a.withdraw amount = .error .InvalidAmount ∧
    a.withdraw amount ≠ .error .InsufficientBalance := by
  constructor
  · simp [Account.withdraw, h]
  · simp [Account.withdraw, h]

/-- Witness for C9: balance `-5`, amount `-1`; the amount exceeds the balance
yet `InvalidAmount` is raised. -/
theorem withdraw_invalid_amount_precedence_witness :
    ((-5 : ℚ) < -1) ∧
    Account.withdraw ⟨0, .CHECKING, -5, .ACTIVE⟩ (-1) =
      .error .InvalidAmount ∧
    Account.withdraw ⟨0, .CHECKING, -5, .ACTIVE⟩ (-1) ≠
      .error .InsufficientBalance :=
  ⟨by norm_num,
   withdraw_invalid_amount_precedence ⟨0, .CHECKING, -5, .ACTIVE⟩ (-1)
     (by decide)⟩

/-! ### Account creation (C8) -/

/-- C8: `create_account_service` fails with `InvalidAccountType` exactly when
the type string is outside the two recognized values; otherwise it builds an
account whose balance is the given initial deposit as-is (any sign: no
non-negativity validation) with status `ACTIVE`, stores it in the account
repository under the fresh identifier it returns, and appends nothing to the
transaction log. -/
theorem create_account_contract (st : BankState) (ty : String) (init : ℚ) :
    (ty ≠ "CHECKING" → ty ≠ "SAVINGS" →
      create_account_service st ty init = .error .InvalidAccountType) ∧
    (∀ t, AccountType.ofString ty = some t →
      create_account_service st ty init =
        .ok ({ accounts :=
                 dict_set st.accounts st.next_id
                   ⟨st.next_id, t, init, .ACTIVE⟩,
               transactions := st.transactions,
               next_id := st.next_id + 1 }, st.next_id) ∧
      get_account_by_id
          (dict_set st.accounts st.next_id ⟨st.next_id, t, init, .ACTIVE⟩)
          st.next_id = some ⟨st.next_id, t, init, .ACTIVE⟩) := by
  constructor
  · intro h1 h2
    simp [create_account_service, AccountType.ofString, h1, h2]
  · intro t ht
    exact ⟨by simp [create_account_service, ht],
      get_account_dict_set_self _ _ _⟩

/-- Witness for C8: an unrecognized type is rejected, and a `SAVINGS` account
with negative initial deposit `-3` is accepted as-is. -/
theorem create_account_contract_witness :
    (create_account_service initState "PREMIUM" 5 =
      .error .InvalidAccountType) ∧
    (create_account_service initState "SAVINGS" (-3) =
      .ok ({ accounts := dict_set [] 0 ⟨0, .SAVINGS, -3, .ACTIVE⟩,
             transactions := [], next_id := 1 }, 0) ∧
      get_account_by_id (dict_set [] 0 ⟨0, .SAVINGS, -3, .ACTIVE⟩) 0 =
        some ⟨0, .SAVINGS, -3, .ACTIVE⟩) :=
  ⟨(create_account_contract initState "PREMIUM" 5).1 (by decide) (by decide),
   (create_account_contract initState "SAVINGS" (-3)).2 .SAVINGS (by decide)⟩

/-! ### Withdraw beyond the balance (C4) -/

/-- C4 as stated is false: an account with a negative balance is reachable
through the public interface (negative initial deposit), and on it a
requested amount of `-1` exceeds the balance `-5` yet withdraw raises
`InvalidAmount`, not `InsufficientBalance`. -/
theorem withdraw_insufficient_counterexample :
    (get_account_by_id
        (run initState [Op.createAccount "CHECKING" (-5)]).accounts 0 =
      some ⟨0, .CHECKING, -5, .ACTIVE⟩) ∧
    ((-1 : ℚ) > (-5 : ℚ)) ∧
    service_withdraw (run initState [Op.createAccount "CHECKING" (-5)]) 0
        (-1) = .error .InvalidAmount ∧
    service_withdraw (run initState [Op.createAccount "CHECKING" (-5)]) 0
        (-1) ≠ .error .InsufficientBalance := by decide

/-- C4 amended: for every positive requested amount exceeding the current
balance, withdraw fails with `InsufficientBalance` and the stored state —
hence the balance — is unchanged by the failed attempt. -/
theorem withdraw_insufficient_balance (st : BankState) (account_id : Nat)
    (acc : Account) (amount : ℚ)
    (hacc : get_account_by_id st.accounts account_id = some acc)
    (hpos : 0 < amount) (hgt : acc.balance < amount) :
    service_withdraw st account_id amount = .error .InsufficientBalance ∧
    step st (.withdraw account_id amount) = st := by
  have h1 : acc.withdraw amount = .error .InsufficientBalance := by
    simp [Account.withdraw, not_le.mpr hpos, hgt]
  refine ⟨by simp [service_withdraw, hacc, h1],
    by simp [step, service_withdraw, hacc, h1]⟩

/-- Witness for C4 (amended): balance `10`, requested `20`. -/
theorem withdraw_insufficient_balance_witness :
    service_withdraw (run initState [Op.createAccount "CHECKING" 10]) 0 20 =
      .error .InsufficientBalance ∧
    step (run initState [Op.createAccount "CHECKING" 10]) (.withdraw 0 20) =
      run initState [Op.createAccount "CHECKING" 10] :=
  withdraw_insufficient_balance _ 0 ⟨0, .CHECKING, 10, .ACTIVE⟩ 20
    (by decide) (by decide) (by decide)

/-! ### Transaction lookup (C6) -/

/-- C6: `get_transactions_for_account` returns exactly the transactions whose
account identifier matches, as a subsequence of the log (so in the order they
were saved, oldest first), and returns the empty list — a normal value, not
an absence signal — when none match. -/
theorem get_transactions_contract (log : List Transaction) (k : Nat) :
    (∀ t ∈ get_transactions_for_account log k, t.account_id = k) ∧
    List.Sublist (get_transactions_for_account log k) log ∧
    (∀ t ∈ log, t.account_id = k → t ∈ get_transactions_for_account log k) ∧
    ((∀ t ∈ log, t.account_id ≠ k) →
      get_transactions_for_account log k = []) := by
  refine ⟨?_, List.filter_sublist _, ?_, ?_⟩
  · intro t ht
    have h := (List.mem_filter.mp ht).2
    simpa using h
  · intro t ht hk
    exact List.mem_filter.mpr ⟨ht, by simpa using hk⟩
  · intro h
    refine List.filter_eq_nil_iff.mpr ?_
    intro t ht
    simpa using h t ht

/-! ### Step equations -/

theorem run_cons (st : BankState) (op : Op) (ops : List Op) :
    run st (op :: ops) = run (step st op) ops := rfl

theorem step_create_none (st : BankState) (ty : String) (init : ℚ)
    (h : AccountType.ofString ty = none) :
    step st (.createAccount ty init) = st := by
  simp [step, create_account_service, h]

theorem step_create_some (st : BankState) (ty : String) (init : ℚ)
    (t : AccountType) (h : AccountType.ofString ty = some t) :
    step st (.createAccount ty init) =
      { accounts :=
          dict_set st.accounts st.next_id ⟨st.next_id, t, init, .ACTIVE⟩,
        transactions := st.transactions,
        next_id := st.next_id + 1 } := by
  simp [step, create_account_service, h]

theorem step_create_transactions (st : BankState) (ty : String) (init : ℚ) :
    (step st (.createAccount ty init)).transactions = st.transactions := by
  cases h : AccountType.ofString ty with
  | none => rw [step_create_none st ty init h]
  | some t => rw [step_create_some st ty init t h]

theorem step_deposit_none (st : BankState) (account_id : Nat) (amount : ℚ)
    (h : get_account_by_id st.accounts account_id = none) :
    step st (.deposit account_id amount) = st := by
  simp [step, service_deposit, h]

theorem step_deposit_nonpos (st : BankState) (account_id : Nat) (amount : ℚ)
    (acc : Account)
    (hacc : get_account_by_id st.accounts account_id = some acc)
    (h : amount ≤ 0) : step st (.deposit account_id amount) = st := by
  simp [step, service_deposit, hacc, Account.deposit, h]

theorem step_deposit_ok (st : BankState) (account_id : Nat) (amount : ℚ)
    (acc : Account)
    (hacc : get_account_by_id st.accounts account_id = some acc)
    (h : 0 < amount) :
    step st (.deposit account_id amount) =
      { accounts := dict_set st.accounts account_id
          { acc with balance := acc.balance + amount },
        transactions := st.transactions ++
          [⟨st.next_id, account_id, .DEPOSIT, amount⟩],
        next_id := st.next_id + 1 } := by
  simp [step, service_deposit, hacc, Account.deposit, not_le.mpr h,
    save_transaction]

theorem step_withdraw_none (st : BankState) (account_id : Nat) (amount : ℚ)
    (h : get_account_by_id st.accounts account_id = none) :
    step st (.withdraw account_id amount) = st := by
  simp [step, service_withdraw, h]

theorem step_withdraw_nonpos (st : BankState) (account_id : Nat) (amount : ℚ)
    (acc : Account)
    (hacc : get_account_by_id st.accounts account_id = some acc)
    (h : amount ≤ 0) : step st (.withdraw account_id amount) = st := by
  simp [step, service_withdraw, hacc, Account.withdraw, h]

theorem step_withdraw_insufficient (st : BankState) (account_id : Nat)
    (amount : ℚ) (acc : Account)
    (hacc : get_account_by_id st.accounts account_id = some acc)
    (h : 0 < amount) (hb : acc.balance < amount) :
    step st (.withdraw account_id amount) = st := by
  simp [step, service_withdraw, hacc, Account.withdraw, not_le.mpr h, hb]

theorem step_withdraw_ok (st : BankState) (account_id : Nat) (amount : ℚ)
    (acc : Account)
    (hacc : get_account_by_id st.accounts account_id = some acc)
    (h : 0 < amount) (hb : amount ≤ acc.balance) :
    step st (.withdraw account_id amount) =
      { accounts := dict_set st.accounts account_id
          { acc with balance := acc.balance - amount },
        transactions := st.transactions ++
          [⟨st.next_id, account_id, .WITHDRAW, amount⟩],
        next_id := st.next_id + 1 } := by
  simp [step, service_withdraw, hacc, Account.withdraw, not_le.mpr h,
    not_lt.mpr hb, save_transaction]

/-! ### Transaction service side effects (C3) -/

/-- C3: a successful `TransactionService` deposit or withdraw performs
exactly one account update (one dict assignment on the account store) and
appends exactly one transaction, whose amount, type and account identifier
match the call; a failing call (`AccountNotFound`, `InvalidAmount`,
`InsufficientBalance`) leaves the state — account store and transaction log —
unchanged. -/
theorem transaction_service_effects (st : BankState) (account_id : Nat)
    (amount : ℚ) :
    (∀ acc, get_account_by_id st.accounts account_id = some acc →
      ∀ st2 tx, service_deposit st account_id amount = .ok (st2, tx) →
        st2.transactions = st.transactions ++ [tx] ∧
        tx.amount = amount ∧ tx.transaction_type = .DEPOSIT ∧
        tx.account_id = account_id ∧
        st2.accounts = dict_set st.accounts account_id
          { acc with balance := acc.balance + amount }) ∧
    (∀ acc, get_account_by_id st.accounts account_id = some acc →
      ∀ st2 tx, service_withdraw st account_id amount = .ok (st2, tx) →
        st2.transactions = st.transactions ++ [tx] ∧
        tx.amount = amount ∧ tx.transaction_type = .WITHDRAW ∧
        tx.account_id = account_id ∧
        st2.accounts = dict_set st.accounts account_id
          { acc with balance := acc.balance - amount }) ∧
    (∀ e, service_deposit st account_id amount = .error e →
      step st (.deposit account_id amount) = st) ∧
    (∀ e, service_withdraw st account_id amount = .error e →
      step st (.withdraw account_id amount) = st) ∧
    (get_account_by_id st.accounts account_id = none →
      service_deposit st account_id amount = .error .AccountNotFound ∧
      service_withdraw st account_id amount = .error .AccountNotFound) := by
  refine ⟨?_, ?_, ?_, ?_, ?_⟩
  · intro acc hacc st2 tx h
    by_cases hle : amount ≤ 0
    · simp [service_deposit, hacc, Account.deposit, hle] at h
    · simp [service_deposit, hacc, Account.deposit, hle,
        save_transaction] at h
      obtain ⟨h1, h2⟩ := h
      subst h1
      subst h2
      exact ⟨rfl, rfl, rfl, rfl, rfl⟩
  · intro acc hacc st2 tx h
    by_cases hle : amount ≤ 0
    · simp [service_withdraw, hacc, Account.withdraw, hle] at h
    · by_cases hb : acc.balance < amount
      · simp [service_withdraw, hacc, Account.withdraw, hle, hb] at h
      · simp [service_withdraw, hacc, Account.withdraw, hle, hb,
          save_transaction] at h
        obtain ⟨h1, h2⟩ := h
        subst h1
        subst h2
        exact ⟨rfl, rfl, rfl, rfl, rfl⟩
  · intro e h
    simp [step, h]
  · intro e h
    simp [step, h]
  · intro h
    exact ⟨by simp [service_deposit, h], by simp [service_withdraw, h]⟩

/-- Witness for C3: on a concrete one-account state, a successful deposit of
`5` appends exactly the matching transaction; a deposit of `0` fails and
leaves the state unchanged; a call on an unknown identifier fails with
`AccountNotFound`. -/
theorem transaction_service_effects_witness :
    ({ accounts :=
         dict_set [(0, ⟨0, .CHECKING, 10, .ACTIVE⟩)] 0
           ⟨0, .CHECKING, 10 + 5, .ACTIVE⟩,
       transactions := [⟨1, 0, .DEPOSIT, 5⟩],
       next_id := 2 } : BankState).transactions =
      (run initState [Op.createAccount "CHECKING" 10]).transactions ++
        [⟨1, 0, .DEPOSIT, 5⟩] ∧
    (⟨1, 0, .DEPOSIT, (5 : ℚ)⟩ : Transaction).amount = 5 ∧
    (⟨1, 0, .DEPOSIT, (5 : ℚ)⟩ : Transaction).transaction_type = .DEPOSIT ∧
    step (run initState [Op.createAccount "CHECKING" 10]) (.deposit 0 0) =
      run initState [Op.createAccount "CHECKING" 10] ∧
    service_withdraw (run initState [Op.createAccount "CHECKING" 10]) 7 3 =
      .error .AccountNotFound := by
  have hok :=
    (transaction_service_effects
      (run initState [Op.createAccount "CHECKING" 10]) 0 5).1
      ⟨0, .CHECKING, 10, .ACTIVE⟩ (by decide) _ ⟨1, 0, .DEPOSIT, 5⟩ (by rfl)
  have herr :=
    (transaction_service_effects
      (run initState [Op.createAccount "CHECKING" 10]) 0 0).2.2.1
      .InvalidAmount (by decide)
  have hnf :=
    ((transaction_service_effects
      (run initState [Op.createAccount "CHECKING" 10]) 7 3).2.2.2.2
      (by decide)).2
  exact ⟨hok.1, hok.2.1, hok.2.2.1, herr, hnf⟩

/-! ### Deposit then withdraw round trip (C7) -/

/-- C7: on any state holding an account with balance `b`, for every amount
`a ≤ b`, running deposit of `a` then withdraw of `a` through the service
returns the stored balance to `b` (when `a ≤ 0` both calls fail and change
nothing; when `0 < a ≤ b` both succeed and the movements cancel). -/
theorem deposit_withdraw_roundtrip (st : BankState) (account_id : Nat)
    (acc : Account) (a : ℚ)
    (hacc : get_account_by_id st.accounts account_id = some acc)
    (hle : a ≤ acc.balance) :
    Option.map Account.balance
      (get_account_by_id
        (run st [Op.deposit account_id a, Op.withdraw account_id a]).accounts
        account_id) = some acc.balance := by
  by_cases ha : a ≤ 0
  · rw [run_cons, step_deposit_nonpos st account_id a acc hacc ha, run_cons,
      step_withdraw_nonpos st account_id a acc hacc ha]
    simp [run, hacc]
  · have hpos : 0 < a := not_le.mp ha
    have hbal : (0 : ℚ) < acc.balance := lt_of_lt_of_le hpos hle
    rw [run_cons, step_deposit_ok st account_id a acc hacc hpos]
    have hacc2 : get_account_by_id
        (dict_set st.accounts account_id
          { acc with balance := acc.balance + a }) account_id =
        some { acc with balance := acc.balance + a } :=
      get_account_dict_set_self _ _ _
    rw [run_cons, step_withdraw_ok _ account_id a _ hacc2 hpos
      (by simpa using hbal.le)]
    simp [run, get_account_dict_set_self]

/-- Witness for C7: balance `10`, deposit `4` then withdraw `4` gives back
`10`. -/
theorem deposit_withdraw_roundtrip_witness :
    Option.map Account.balance
      (get_account_by_id
        (run (run initState [Op.createAccount "CHECKING" 10])
          [Op.deposit 0 4, Op.withdraw 0 4]).accounts 0) = some 10 :=
  deposit_withdraw_roundtrip (run initState [Op.createAccount "CHECKING" 10])
    0 ⟨0, .CHECKING, 10, .ACTIVE⟩ 4 (by decide) (by decide)

/-! ### Balance non-negativity (C1) -/

/-- C1 as stated is false: `createAccount` validates nothing about the
initial deposit, so one single public operation reaches an account whose
balance is negative. -/
theorem balance_nonneg_counterexample :
    get_account_by_id
        (run initState [Op.createAccount "CHECKING" (-1)]).accounts 0 =
      some ⟨0, .CHECKING, -1, .ACTIVE⟩ ∧
    ¬(0 ≤ (-1 : ℚ)) := by decide

theorem step_preserves_nonneg (st : BankState) (op : Op)
    (hst : ∀ p ∈ st.accounts, 0 ≤ (p.2).balance)
    (hop : nonneg_creations op) :
    ∀ p ∈ (step st op).accounts, 0 ≤ (p.2).balance := by
  cases op with
  | createAccount ty init =>
    cases hty : AccountType.ofString ty with
    | none => rw [step_create_none st ty init hty]; exact hst
    | some t =>
      rw [step_create_some st ty init t hty]
      intro p hp
      rcases mem_dict_set _ _ _ _ hp with h | h
      · subst h
        exact hop
      · exact hst p h
  | deposit account_id amount =>
    cases hacc : get_account_by_id st.accounts account_id with
    | none => rw [step_deposit_none st account_id amount hacc]; exact hst
    | some acc =>
      by_cases hle : amount ≤ 0
      · rw [step_deposit_nonpos st account_id amount acc hacc hle]
        exact hst
      · rw [step_deposit_ok st account_id amount acc hacc (not_le.mp hle)]
        intro p hp
        rcases mem_dict_set _ _ _ _ hp with h | h
        · subst h
          exact add_nonneg (hst _ (get_account_mem _ _ _ hacc))
            (not_le.mp hle).le
        · exact hst p h
  | withdraw account_id amount =>
    cases hacc : get_account_by_id st.accounts account_id with
    | none => rw [step_withdraw_none st account_id amount hacc]; exact hst
    | some acc =>
      by_cases hle : amount ≤ 0
      · rw [step_withdraw_nonpos st account_id amount acc hacc hle]
        exact hst
      · by_cases hb : acc.balance < amount
        · rw [step_withdraw_insufficient st account_id amount acc hacc
            (not_le.mp hle) hb]
          exact hst
        · rw [step_withdraw_ok st account_id amount acc hacc (not_le.mp hle)
            (not_lt.mp hb)]
          intro p hp
          rcases mem_dict_set _ _ _ _ hp with h | h
          · subst h
            exact sub_nonneg.mpr (not_lt.mp hb)
          · exact hst p h

theorem run_preserves_nonneg (ops : List Op) (st : BankState)
    (hst : ∀ p ∈ st.accounts, 0 ≤ (p.2).balance)
    (hops : ∀ op ∈ ops, nonneg_creations op) :
    ∀ p ∈ (run st ops).accounts, 0 ≤ (p.2).balance := by
  induction ops generalizing st with
  | nil => exact hst
  | cons op rest ih =>
    rw [run_cons]
    exact ih (step st op)
      (step_preserves_nonneg st op hst (hops op (List.mem_cons_self op rest)))
      (fun o ho => hops o (List.mem_cons_of_mem op ho))

/-- C1 amended: for every sequence of public operations in which each
`createAccount` carries a non-negative initial deposit, every account's
balance is non-negative after every operation.  (The restriction on the
initial deposits is forced by `balance_nonneg_counterexample`: the code
accepts negative initial deposits as-is.) -/
theorem balance_nonneg_invariant (ops : List Op)
    (hops : ∀ op ∈ ops, nonneg_creations op) (account_id : Nat)
    (acc : Account)
    (hacc : get_account_by_id (run initState ops).accounts account_id =
      some acc) :
    0 ≤ acc.balance := by
  have h := run_preserves_nonneg ops initState (by simp [initState]) hops
  exact h (account_id, acc) (get_account_mem _ _ _ hacc)

/-- Witness for C1 (amended): create with initial deposit `10`, then deposit
`5`; the stored balance `10 + 5` is non-negative. -/
theorem balance_nonneg_invariant_witness :
    (0 : ℚ) ≤ (⟨0, .CHECKING, 10 + 5, .ACTIVE⟩ : Account).balance :=
  balance_nonneg_invariant
    [Op.createAccount "CHECKING" 10, Op.deposit 0 5] (by decide) 0
    ⟨0, .CHECKING, 10 + 5, .ACTIVE⟩ (by rfl)

/-! ### Account creation appends no transaction (C10) -/

theorem step_preserves_ids_bounded (st : BankState) (op : Op)
    (hst : ids_bounded st) : ids_bounded (step st op) := by
  obtain ⟨ha, ht⟩ := hst
  cases op with
  | createAccount ty init =>
    cases hty : AccountType.ofString ty with
    | none => rw [step_create_none st ty init hty]; exact ⟨ha, ht⟩
    | some t =>
      rw [step_create_some st ty init t hty]
      refine ⟨fun p hp => ?_, fun t2 h2 => Nat.lt_succ_of_lt (ht t2 h2)⟩
      rcases mem_dict_set _ _ _ _ hp with h | h
      · subst h
        exact Nat.lt_succ_self _
      · exact Nat.lt_succ_of_lt (ha p h)
  | deposit account_id amount =>
    cases hacc : get_account_by_id st.accounts account_id with
    | none =>
      rw [step_deposit_none st account_id amount hacc]
      exact ⟨ha, ht⟩
    | some acc =>
      by_cases hle : amount ≤ 0
      · rw [step_deposit_nonpos st account_id amount acc hacc hle]
        exact ⟨ha, ht⟩
      · rw [step_deposit_ok st account_id amount acc hacc (not_le.mp hle)]
        have hid : account_id < st.next_id :=
          ha _ (get_account_mem _ _ _ hacc)
        refine ⟨fun p hp => ?_, fun t2 h2 => ?_⟩
        · rcases mem_dict_set _ _ _ _ hp with h | h
          · subst h
            exact Nat.lt_succ_of_lt hid
          · exact Nat.lt_succ_of_lt (ha p h)
        · rcases List.mem_append.mp h2 with h | h
          · exact Nat.lt_succ_of_lt (ht t2 h)
          · rcases List.mem_singleton.mp h with rfl
            exact Nat.lt_succ_of_lt hid
  | withdraw account_id amount =>
    cases hacc : get_account_by_id st.accounts account_id with
    | none =>
      rw [step_withdraw_none st account_id amount hacc]
      exact ⟨ha, ht⟩
    | some acc =>
      by_cases hle : amount ≤ 0
      · rw [step_withdraw_nonpos st account_id amount acc hacc hle]
        exact ⟨ha, ht⟩
      · by_cases hb : acc.balance < amount
        · rw [step_withdraw_insufficient st account_id amount acc hacc
            (not_le.mp hle) hb]
          exact ⟨ha, ht⟩
        · rw [step_withdraw_ok st account_id amount acc hacc (not_le.mp hle)
            (not_lt.mp hb)]
          have hid : account_id < st.next_id :=
            ha _ (get_account_mem _ _ _ hacc)
          refine ⟨fun p hp => ?_, fun t2 h2 => ?_⟩
          · rcases mem_dict_set _ _ _ _ hp with h | h
            · subst h
              exact Nat.lt_succ_of_lt hid
            · exact Nat.lt_succ_of_lt (ha p h)
          · rcases List.mem_append.mp h2 with h | h
            · exact Nat.lt_succ_of_lt (ht t2 h)
            · rcases List.mem_singleton.mp h with rfl
              exact Nat.lt_succ_of_lt hid

theorem run_preserves_ids_bounded (ops : List Op) (st : BankState)
    (hst : ids_bounded st) : ids_bounded (run st ops) := by
  induction ops generalizing st with
  | nil => exact hst
  | cons op rest ih =>
    rw [run_cons]
    exact ih (step st op) (step_preserves_ids_bounded st op hst)

/-- C10: account creation appends nothing to the transaction log; the
identifier a successful creation returns has an empty transaction history;
and that history stays empty under any further operation that is not a
successful deposit or withdraw on that identifier — a failed deposit or
withdraw on it included — so it is empty until the first successful deposit
or withdraw. -/
theorem create_account_no_transactions (ops : List Op) (ty : String)
    (init : ℚ) :
    (step (run initState ops) (.createAccount ty init)).transactions =
      (run initState ops).transactions ∧
    (∀ st2 rid, create_account_service (run initState ops) ty init =
        .ok (st2, rid) →
      get_transactions_for_account st2.transactions rid = []) ∧
    (∀ st id2 op, get_transactions_for_account st.transactions id2 = [] →
      (∀ amt, op = Op.deposit id2 amt →
        ∀ st2 tx, service_deposit st id2 amt ≠ .ok (st2, tx)) →
      (∀ amt, op = Op.withdraw id2 amt →
        ∀ st2 tx, service_withdraw st id2 amt ≠ .ok (st2, tx)) →
      get_transactions_for_account (step st op).transactions id2 = []) := by
  refine ⟨step_create_transactions _ _ _, ?_, ?_⟩
  · intro st2 rid h
    cases hty : AccountType.ofString ty with
    | none => simp [create_account_service, hty] at h
    | some t =>
      simp only [create_account_service, hty] at h
      rcases h with ⟨rfl, rfl⟩
      have hb := (run_preserves_ids_bounded ops initState
        ⟨by simp [initState], by simp [initState]⟩).2
      refine List.filter_eq_nil_iff.mpr ?_
      intro t2 h2
      have hlt := hb t2 h2
      simp only [beq_iff_eq]
      omega
  · intro st id2 op hempty hdep hwit
    cases op with
    | createAccount ty2 init2 =>
      rw [step_create_transactions]
      exact hempty
    | deposit aid amt =>
      by_cases heq : aid = id2
      · subst heq
        cases hs : service_deposit st aid amt with
        | ok p => exact absurd hs (hdep amt rfl p.1 p.2)
        | error e =>
          have hstep : step st (.deposit aid amt) = st := by simp [step, hs]
          rw [hstep]
          exact hempty
      · cases hacc : get_account_by_id st.accounts aid with
        | none => rw [step_deposit_none st aid amt hacc]; exact hempty
        | some acc =>
          by_cases hle : amt ≤ 0
          · rw [step_deposit_nonpos st aid amt acc hacc hle]; exact hempty
          · rw [step_deposit_ok st aid amt acc hacc (not_le.mp hle)]
            simp only [get_transactions_for_account] at hempty ⊢
            rw [List.filter_append, hempty]
            simp [heq]
    | withdraw aid amt =>
      by_cases heq : aid = id2
      · subst heq
        cases hs : service_withdraw st aid amt with
        | ok p => exact absurd hs (hwit amt rfl p.1 p.2)
        | error e =>
          have hstep : step st (.withdraw aid amt) = st := by
            simp [step, hs]
          rw [hstep]
          exact hempty
      · cases hacc : get_account_by_id st.accounts aid with
        | none => rw [step_withdraw_none st aid amt hacc]; exact hempty
        | some acc =>
          by_cases hle : amt ≤ 0
          · rw [step_withdraw_nonpos st aid amt acc hacc hle]; exact hempty
          · by_cases hb : acc.balance < amt
            · rw [step_withdraw_insufficient st aid amt acc hacc
                (not_le.mp hle) hb]
              exact hempty
            · rw [step_withdraw_ok st aid amt acc hacc (not_le.mp hle)
                (not_lt.mp hb)]
              simp only [get_transactions_for_account] at hempty ⊢
              rw [List.filter_append, hempty]
              simp [heq]

/-- Witness for C10: creating a `CHECKING` account with initial deposit `7`
on the empty state appends no transaction, the returned identifier `0` has
an empty history, and a failed deposit of amount `0` on that very
identifier keeps the history empty. -/
theorem create_account_no_transactions_witness :
    (step (run initState []) (.createAccount "CHECKING" 7)).transactions =
      (run initState []).transactions ∧
    get_transactions_for_account
      ({ accounts := dict_set [] 0 ⟨0, .CHECKING, 7, .ACTIVE⟩,
         transactions := [], next_id := 1 } : BankState).transactions 0 =
      [] ∧
    get_transactions_for_account
      (step ({ accounts := dict_set [] 0 ⟨0, .CHECKING, 7, .ACTIVE⟩,
               transactions := [], next_id := 1 } : BankState)
        (.deposit 0 0)).transactions 0 = [] := by
  have h := create_account_no_transactions [] "CHECKING" 7
  refine ⟨h.1, ?_, ?_⟩
  · exact h.2.1
      { accounts := dict_set [] 0 ⟨0, .CHECKING, 7, .ACTIVE⟩,
        transactions := [], next_id := 1 } 0 (by rfl)
  · refine h.2.2
      { accounts := dict_set [] 0 ⟨0, .CHECKING, 7, .ACTIVE⟩,
        transactions := [], next_id := 1 } 0 (.deposit 0 0) (by rfl)
      ?_ (fun amt hh => Op.noConfusion hh)
    intro amt hh st2 tx hs
    injection hh with h1 h2
    subst h2
    rw [show service_deposit
        ({ accounts := dict_set [] 0 ⟨0, .CHECKING, 7, .ACTIVE⟩,
           transactions := [], next_id := 1 } : BankState) 0 0 =
        .error .InvalidAmount from rfl] at hs
    exact Except.noConfusion hs

/-- Witness for C6: on a three-transaction log, the matching transaction for
account `0` is returned, and the lookup for the unmatched account `2` is the
empty list. -/
theorem get_transactions_contract_witness :
    (⟨3, 0, .WITHDRAW, (2 : ℚ)⟩ : Transaction) ∈
      get_transactions_for_account
        [⟨1, 0, .DEPOSIT, 5⟩, ⟨2, 1, .DEPOSIT, 5⟩, ⟨3, 0, .WITHDRAW, 2⟩]
        0 ∧
    get_transactions_for_account
      [⟨1, 0, .DEPOSIT, 5⟩, ⟨2, 1, .DEPOSIT, 5⟩, ⟨3, 0, .WITHDRAW, 2⟩] 2 =
      [] :=
  ⟨(get_transactions_contract
      [⟨1, 0, .DEPOSIT, 5⟩, ⟨2, 1, .DEPOSIT, 5⟩, ⟨3, 0, .WITHDRAW, 2⟩]
      0).2.2.1 ⟨3, 0, .WITHDRAW, 2⟩ (by decide) (by decide),
   (get_transactions_contract
      [⟨1, 0, .DEPOSIT, 5⟩, ⟨2, 1, .DEPOSIT, 5⟩, ⟨3, 0, .WITHDRAW, 2⟩]
      2).2.2.2 (by decide)⟩
